import Mathlib

/-!
Verification development for the tstory-auto-posting pipeline.

The definitions below are a shallow embedding of the TypeScript services:

* `Tstory.Publisher` — `PublisherService` (`getNextPost`, `updatePostStatus`,
  `publishSinglePost`, `runPublisher`): the durable post queue with bounded
  retry and the session-recovery control flow.
* `Tstory.Crawler` — `CrawlerService` (`generateDataHash`,
  `crawlAndSavePlans`): fingerprint-keyed upsert of crawled plans.
* `Tstory.Analyzer` — `AnalyzerService` (`generateRankingHash`,
  `getLatestRankingSnapshot`, `getThisWeekPost`, `saveHtmlToQueue`,
  `runFullAnalysis`): the ranking-hash change gate.
* `Tstory.Automation` — `AutomationService.runAutomation`: error
  classification and the 5-minute delayed re-invocation.

Database tables are modelled as lists of rows, `new Date()` as a `Nat`
timestamp supplied by the caller, thrown JS exceptions as `Except String`,
and the external collaborators (Playwright pages, the Gemini API) as
explicit environment records.  SHA-256 is kept as an uninterpreted function
parameter `hash : String → String`; collision-freedom enters only as an
explicit injectivity hypothesis where a claim needs it.
-/

namespace Tstory

/-- Lexicographic comparison of character lists, the order JS `Array.sort()`
uses on strings (element-wise code-unit comparison, shorter prefix first). -/
def charsLe : List Char → List Char → Bool
  | [], _ => true
  | _ :: _, [] => false
  | a :: as, b :: bs => if a = b then charsLe as bs else decide (a < b)

/-- String comparison used to model the JS default string sort. -/
def strLe (a b : String) : Prop := charsLe a.data b.data = true

instance : DecidableRel strLe := fun a b => instDecidableEqBool _ _

theorem charsLe_total (a b : List Char) : charsLe a b = true ∨ charsLe b a = true := by
  induction a generalizing b with
  | nil => left; rfl
  | cons x xs ih =>
    cases b with
    | nil => right; rfl
    | cons y ys =>
      by_cases hxy : x = y
      · subst hxy
        simpa [charsLe] using ih ys
      · rcases lt_trichotomy x y with h | h | h
        · left; simp [charsLe, hxy, h]
        · exact absurd h hxy
        · right
          have hyx : y ≠ x := fun hc => hxy hc.symm
          simp [charsLe, hyx, h]

theorem charsLe_trans {a b c : List Char} (hab : charsLe a b = true)
    (hbc : charsLe b c = true) : charsLe a c = true := by
  induction a generalizing b c with
  | nil => rfl
  | cons x xs ih =>
    cases b with
    | nil => simp [charsLe] at hab
    | cons y ys =>
      cases c with
      | nil => simp [charsLe] at hbc
      | cons z zs =>
        by_cases hxy : x = y
        · subst hxy
          by_cases hxz : x = z
          · subst hxz
            simp only [charsLe, if_pos rfl] at hab hbc ⊢
            exact ih hab hbc
          · simp only [charsLe, if_pos rfl] at hab
            simp only [charsLe, if_neg hxz] at hbc ⊢
            exact hbc
        · simp only [charsLe, if_neg hxy, decide_eq_true_eq] at hab
          by_cases hyz : y = z
          · subst hyz
            simp [charsLe, hxy, hab]
          · simp only [charsLe, if_neg hyz, decide_eq_true_eq] at hbc
            have hxz : x < z := lt_trans hab hbc
            have hne : x ≠ z := ne_of_lt hxz
            simp [charsLe, hne, hxz]

theorem charsLe_antisymm {a b : List Char} (hab : charsLe a b = true)
    (hba : charsLe b a = true) : a = b := by
  induction a generalizing b with
  | nil =>
    cases b with
    | nil => rfl
    | cons y ys => simp [charsLe] at hba
  | cons x xs ih =>
    cases b with
    | nil => simp [charsLe] at hab
    | cons y ys =>
      by_cases hxy : x = y
      · subst hxy
        simp only [charsLe, if_pos rfl] at hab hba
        rw [ih hab hba]
      · simp only [charsLe, if_neg hxy, decide_eq_true_eq] at hab
        have hyx : y ≠ x := fun hc => hxy hc.symm
        simp only [charsLe, if_neg hyx, decide_eq_true_eq] at hba
        exact absurd hab (not_lt_of_lt hba)

instance : IsTotal String strLe := ⟨fun a b => charsLe_total a.data b.data⟩

instance : IsTrans String strLe := ⟨fun _ _ _ => charsLe_trans⟩

instance : IsAntisymm String strLe :=
  ⟨fun a b hab hba => String.ext (charsLe_antisymm hab hba)⟩

/-- JS `list.join('|')`: concatenate with the fixed `|` separator. -/
def joinPipe : List String → String
  | [] => ""
  | [a] => a
  | a :: rest => a ++ "|" ++ joinPipe rest

/-- Does `pat` occur at the very start of `s`? -/
def startsWithChars : List Char → List Char → Bool
  | [], _ => true
  | _ :: _, [] => false
  | p :: ps, c :: cs => p = c && startsWithChars ps cs

/-- Does `pat` occur somewhere inside `s`? -/
def hasSubChars (pat : List Char) : List Char → Bool
  | [] => startsWithChars pat []
  | c :: cs => startsWithChars pat (c :: cs) || hasSubChars pat cs

/-- JS `s.includes(pat)`: does `pat` occur as a contiguous substring? -/
def strIncludes (s pat : String) : Bool := hasSubChars pat.data s.data

/-! ## Data model

Rows of the `post_queue`, `raw_plans` and `ranking_snapshots` tables
(`prisma/migrations/20251014023607_init/migration.sql`), restricted to the
columns the embedded services read or write.  Timestamps are `Nat`. -/

/-- The `PostStatus` enum of the Prisma schema. -/
inductive PostStatus
  | PENDING
  | PUBLISHED
  | FAILED
deriving DecidableEq, Repr

/-- The `PostType` enum of the Prisma schema. -/
inductive PostType
  | NEW_POST
  | REVISION
deriving DecidableEq, Repr

/-- A `post_queue` row. -/
structure PostQueue where
  id : Nat
  title : String
  htmlBody : String
  tags : List String
  postType : PostType
  originalPostId : Option String
  rankingSnapshotId : Option Nat
  status : PostStatus
  retryCount : Nat
  failureLog : Option String
  createdAt : Nat
  publishedAt : Option Nat
deriving DecidableEq, Repr

/-- A `raw_plans` row / crawled plan record (the stable attribute subset
hashed by `generateDataHash`, plus the housekeeping fields the upsert
refreshes). -/
structure RawPlan where
  id : Nat
  planName : String
  dataHash : String
  sourceSite : String
  detailUrl : String
  mvno : String
  network : String
  technology : String
  pricePromo : Int
  priceOriginal : Int
  promotionDurationMonths : Int
  promotionEndDate : Option Nat
  dataBaseGB : Int
  dataPostSpeedMbps : Option Int
  talkMinutes : Int
  smsCount : Int
  benefitSummary : String
  createdAt : Nat
  updatedAt : Nat
deriving DecidableEq, Repr

/-- A `ranking_snapshots` row (`analysisData` abbreviated to the member
count it records; `rankedPlans` kept as the connected plan ids). -/
structure RankingSnapshot where
  id : Nat
  rankingHash : String
  topCount : Nat
  analysisDate : Nat
  rankedPlanIds : List Nat
deriving DecidableEq, Repr

/-! ## PublisherService — durable queue and session recovery

Embeds `PublisherService` of `publisher.service.ts`: `getNextPost`,
`updatePostStatus`, the database outcome of `publishSinglePost` and the
single-entry `runPublisher` workflow, plus the session-retry control flow
of `publishSinglePost` (session restore, expiry detection via the
navigation helpers, one re-login, bounded failure). -/

/-- Ordering used by `getNextPost`'s `orderBy: { createdAt: 'asc' }`. -/
def byCreatedAt (a b : PostQueue) : Prop := a.createdAt ≤ b.createdAt

instance : DecidableRel byCreatedAt := fun a b => Nat.decLe a.createdAt b.createdAt

instance : IsTotal PostQueue byCreatedAt := ⟨fun a b => Nat.le_total a.createdAt b.createdAt⟩

instance : IsTrans PostQueue byCreatedAt := ⟨fun _ _ _ => Nat.le_trans⟩

/-- Embeds `getNextPost`: `prisma.postQueue.findFirst({ where: { status: 'PENDING' },
orderBy: { createdAt: 'asc' } })` — the oldest PENDING row, if any. -/
def getNextPost (queue : List PostQueue) : Option PostQueue :=
  (List.insertionSort byCreatedAt
    (queue.filter fun p => decide (p.status = PostStatus.PENDING))).head?

/-- Embeds `updatePostStatus`: `prisma.postQueue.update` setting `status` and
`failureLog`, incrementing `retryCount`, and setting `publishedAt` to the
current time exactly when the new status is `PUBLISHED` (`undefined`
leaves the column untouched). -/
def updatePostStatus (queue : List PostQueue) (postId : Nat) (status : PostStatus)
    (failureLog : Option String) (now : Nat) : List PostQueue :=
  queue.map fun p =>
    if p.id = postId then
      { p with
        status := status
        failureLog := failureLog
        retryCount := p.retryCount + 1
        publishedAt := if status = PostStatus.PUBLISHED then some now else p.publishedAt }
    else p

/-- Result of one browser publish attempt: success (with the post id
extracted from the final `/manage/posts/<id>` URL, when present) or a
thrown error message. -/
inductive PublishOutcome
  | success (extractedPostId : Option String)
  | failure (errMsg : String)
deriving DecidableEq, Repr

/-- Database effect of `publishSinglePost` on the queue, given the outcome
of the browser attempt.  On success the row becomes `PUBLISHED` with
`publishedAt := now`, `originalPostId` refreshed from the URL for a new
post, and `retryCount` incremented; on failure `updatePostStatus` is
called with `FAILED` once `post.retryCount >= 3` and `PENDING` otherwise. -/
def publishSinglePostDb (queue : List PostQueue) (post : PostQueue)
    (outcome : PublishOutcome) (now : Nat) : List PostQueue :=
  match outcome with
  | PublishOutcome.success extracted =>
      let publishedPostId :=
        if post.postType = PostType.REVISION then post.originalPostId
        else match extracted with
          | some s => some s
          | none => post.originalPostId
      queue.map fun p =>
        if p.id = post.id then
          { p with
            status := PostStatus.PUBLISHED
            originalPostId := publishedPostId
            publishedAt := some now
            retryCount := p.retryCount + 1 }
        else p
  | PublishOutcome.failure msg =>
      updatePostStatus queue post.id
        (if post.retryCount ≥ 3 then PostStatus.FAILED else PostStatus.PENDING)
        (some msg) now

/-- Embeds `runPublisher`: dequeue the single oldest PENDING entry and publish it;
an empty queue yields `{ processed: 0 }`, a publish failure is rethrown
after the queue row was updated. -/
def runPublisher (queue : List PostQueue) (outcome : PublishOutcome) (now : Nat) :
    Except String (Nat × Bool) × List PostQueue :=
  match getNextPost queue with
  | none => (Except.ok (0, true), queue)
  | some post =>
      let updated := publishSinglePostDb queue post outcome now
      match outcome with
      | PublishOutcome.success _ => (Except.ok (1, true), updated)
      | PublishOutcome.failure msg => (Except.error msg, updated)

/-- One drain attempt as the automation loop sees it: run the publisher
once and keep the resulting queue. -/
def drainStep (queue : List PostQueue) (outcome : PublishOutcome) (now : Nat) :
    List PostQueue :=
  (runPublisher queue outcome now).2

/-- External world of one `publishSinglePost` call: whether a persisted
session file exists, whether the k-th `loginToTistory` call succeeds,
whether the k-th `navigateToWritePage` / `navigateToEditPage` call finds a
live session (`false` = redirect to the login page), and the downstream
editor/publish steps. -/
structure SessionEnv where
  hasSession : Bool
  loginOk : Nat → Bool
  navValid : Nat → Bool
  fillOk : Bool
  publishOk : Bool
deriving Inhabited

/-- Counters instrumenting the control flow of `publishSinglePost`:
`authAttempts` counts attempts to enter the site authenticated (the
initial one — restored session or fresh login — plus each re-login after
expiry was detected), `logins` counts `loginToTistory` calls, `navCalls`
the navigation (action) attempts, and the session file operations. -/
structure PubTrace where
  authAttempts : Nat
  logins : Nat
  navCalls : Nat
  sessionDeletes : Nat
  sessionSaves : Nat
deriving DecidableEq, Repr

/-- Editor and publish steps after a page with a live session was reached
(`fillPostContent` then `publishPost`). -/
def publishTail (env : SessionEnv) (t : PubTrace) : Except String Unit × PubTrace :=
  if env.fillOk then
    if env.publishOk then (Except.ok (), t)
    else (Except.error "포스트 발행 후 URL 변경 감지 실패", t)
  else (Except.error "포스트 콘텐츠 입력 실패", t)

/-- Continuation of `publishSinglePost` after the first session establishment: navigate to
the write/edit page; on an expired session delete the session file,
re-login exactly once, save the new session and navigate again; a second
expiry throws `재로그인 후에도 페이지 접근 실패`. -/
def flowAfterFirstAuth (env : SessionEnv) (t : PubTrace) : Except String Unit × PubTrace :=
  let t1 : PubTrace := { t with navCalls := t.navCalls + 1 }
  if env.navValid 0 then
    publishTail env t1
  else
    let t2 : PubTrace := { t1 with sessionDeletes := t1.sessionDeletes + 1 }
    if env.loginOk t2.logins then
      let t3 : PubTrace :=
        { t2 with
          authAttempts := t2.authAttempts + 1
          logins := t2.logins + 1
          sessionSaves := t2.sessionSaves + 1 }
      let t4 : PubTrace := { t3 with navCalls := t3.navCalls + 1 }
      if env.navValid 1 then
        publishTail env t4
      else
        (Except.error "재로그인 후에도 페이지 접근 실패", t4)
    else
      (Except.error "티스토리 로그인 실패",
        { t2 with authAttempts := t2.authAttempts + 1, logins := t2.logins + 1 })

/-- Control flow of `publishSinglePost`: restore the persisted session if
one exists, otherwise log in fully and save it; then proceed with the
navigation / bounded re-login flow.  Returns the propagated result plus
the instrumentation trace. -/
def publishSinglePostFlow (env : SessionEnv) : Except String Unit × PubTrace :=
  if env.hasSession then
    flowAfterFirstAuth env
      { authAttempts := 1, logins := 0, navCalls := 0, sessionDeletes := 0, sessionSaves := 0 }
  else
    if env.loginOk 0 then
      flowAfterFirstAuth env
        { authAttempts := 1, logins := 1, navCalls := 0, sessionDeletes := 0, sessionSaves := 1 }
    else
      (Except.error "티스토리 로그인 실패",
        { authAttempts := 1, logins := 1, navCalls := 0, sessionDeletes := 0, sessionSaves := 0 })

/-! ## CrawlerService — fingerprint-keyed upsert

Embeds `CrawlerService.generateDataHash` and the upsert loop of
`crawlAndSavePlans` (`crawler.service.ts`).  The `raw_plans_dataHash_key`
unique index backs the `where: { dataHash }` upsert. -/

/-- A freshly crawled record (`CrawledPlanData`). -/
structure CrawledPlanData where
  planName : String
  sourceSite : String
  detailUrl : String
  mvno : String
  network : String
  technology : String
  pricePromo : Int
  priceOriginal : Int
  promotionDurationMonths : Int
  promotionEndDate : Option Nat
  dataBaseGB : Int
  dataPostSpeedMbps : Option Int
  talkMinutes : Int
  smsCount : Int
  benefitSummary : String
deriving DecidableEq, Repr

/-- JS `Array.join` element rendering for an optional number:
`undefined` renders as the empty string. -/
def showOptInt : Option Int → String
  | some v => toString v
  | none => ""

/-- Embeds `generateDataHash`: hash of the `|`-joined stable attribute subset
(site, name, mvno, prices, data, talk, sms, promotion length, technology —
no crawl timestamps, no internal ids). -/
def generateDataHash (hash : String → String) (plan : CrawledPlanData) : String :=
  hash (joinPipe
    [plan.sourceSite, plan.planName, plan.mvno, toString plan.pricePromo,
     toString plan.priceOriginal, toString plan.dataBaseGB,
     showOptInt plan.dataPostSpeedMbps, toString plan.talkMinutes,
     toString plan.smsCount, toString plan.promotionDurationMonths,
     plan.technology])

/-- The `raw_plans` table together with the autoincrement id counter. -/
structure CrawlerState where
  plans : List RawPlan
  nextId : Nat
deriving DecidableEq, Repr

/-- The row `prisma.rawPlan.upsert` inserts on a miss. -/
def createdPlanRow (dataHash : String) (id : Nat) (plan : CrawledPlanData) (now : Nat) :
    RawPlan :=
  { id := id
    planName := plan.planName
    dataHash := dataHash
    sourceSite := plan.sourceSite
    detailUrl := plan.detailUrl
    mvno := plan.mvno
    network := plan.network
    technology := plan.technology
    pricePromo := plan.pricePromo
    priceOriginal := plan.priceOriginal
    promotionDurationMonths := plan.promotionDurationMonths
    promotionEndDate := plan.promotionEndDate
    dataBaseGB := plan.dataBaseGB
    dataPostSpeedMbps := plan.dataPostSpeedMbps
    talkMinutes := plan.talkMinutes
    smsCount := plan.smsCount
    benefitSummary := plan.benefitSummary
    createdAt := now
    updatedAt := now }

/-- Field refresh `prisma.rawPlan.upsert` applies on a hit (`dataHash`,
`id` and `createdAt` untouched, `updatedAt := new Date()`). -/
def refreshPlanRow (row : RawPlan) (plan : CrawledPlanData) (now : Nat) : RawPlan :=
  { row with
    planName := plan.planName
    sourceSite := plan.sourceSite
    detailUrl := plan.detailUrl
    mvno := plan.mvno
    network := plan.network
    technology := plan.technology
    pricePromo := plan.pricePromo
    priceOriginal := plan.priceOriginal
    promotionDurationMonths := plan.promotionDurationMonths
    promotionEndDate := plan.promotionEndDate
    dataBaseGB := plan.dataBaseGB
    dataPostSpeedMbps := plan.dataPostSpeedMbps
    talkMinutes := plan.talkMinutes
    smsCount := plan.smsCount
    benefitSummary := plan.benefitSummary
    updatedAt := now }

/-- One iteration of the `crawlAndSavePlans` loop:
`prisma.rawPlan.upsert({ where: { dataHash }, update: …, create: … })`.
Returns the new table state and whether a row was created. -/
def upsertPlan (hash : String → String) (st : CrawlerState) (plan : CrawledPlanData)
    (now : Nat) : CrawlerState × Bool :=
  let dataHash := generateDataHash hash plan
  if dataHash ∈ st.plans.map RawPlan.dataHash then
    ({ st with plans := st.plans.map fun row =>
        if row.dataHash = dataHash then refreshPlanRow row plan now else row },
     false)
  else
    ({ plans := st.plans ++ [createdPlanRow dataHash st.nextId plan now]
       nextId := st.nextId + 1 },
     true)

/-- One accumulator step of the `crawlAndSavePlans` loop: upsert the
record and count it when a row was created. -/
def crawlStep (hash : String → String) (now : Nat) (acc : CrawlerState × Nat)
    (plan : CrawledPlanData) : CrawlerState × Nat :=
  let next := upsertPlan hash acc.1 plan now
  (next.1, acc.2 + if next.2 then 1 else 0)

/-- The upsert loop of `crawlAndSavePlans` over a batch of crawled
records, counting created rows. -/
def crawlAndSavePlans (hash : String → String) (st : CrawlerState)
    (records : List CrawledPlanData) (now : Nat) : CrawlerState × Nat :=
  records.foldl (crawlStep hash now) (st, 0)

/-! ## AnalyzerService — change-gated trigger

Embeds `AnalyzerService.generateRankingHash`, `getLatestRankingSnapshot`,
`getThisWeekPost`, `saveHtmlToQueue` and the branch structure of
`runFullAnalysis` (`analyzer` service, `src/unnamed/part_001`).  The
Gemini calls of Steps 4–6 (`analyzeInChunks`, `mergeChunkResults`,
`generateBlogPost`) are external collaborators and enter as the
environment's `blog` outcome; they perform no database writes. -/

/-- Ordering of `findMany({ orderBy: { pricePromo: 'asc' } })`. -/
def byPricePromo (a b : RawPlan) : Prop := a.pricePromo ≤ b.pricePromo

instance : DecidableRel byPricePromo := fun a b => Int.decLe a.pricePromo b.pricePromo

instance : IsTotal RawPlan byPricePromo := ⟨fun a b => Int.le_total a.pricePromo b.pricePromo⟩

instance : IsTrans RawPlan byPricePromo := ⟨fun _ _ _ => Int.le_trans⟩

/-- The plan list as `runFullAnalysis` reads it. -/
def sortPlansByPrice (plans : List RawPlan) : List RawPlan :=
  List.insertionSort byPricePromo plans

/-- JS default `Array.sort()` on strings. -/
def sortStrings (l : List String) : List String :=
  List.insertionSort strLe l

/-- Embeds `generateRankingHash`: hashes of the TOP 10 plans, sorted, joined with
`|`, hashed once more. -/
def generateRankingHash (hash : String → String) (plans : List RawPlan) : String :=
  hash (joinPipe (sortStrings ((plans.take 10).map RawPlan.dataHash)))

/-- Ordering of `findFirst({ orderBy: { analysisDate: 'desc' } })`. -/
def byAnalysisDateDesc (a b : RankingSnapshot) : Prop := b.analysisDate ≤ a.analysisDate

instance : DecidableRel byAnalysisDateDesc := fun a b => Nat.decLe b.analysisDate a.analysisDate

instance : IsTotal RankingSnapshot byAnalysisDateDesc :=
  ⟨fun a b => Nat.le_total b.analysisDate a.analysisDate⟩

instance : IsTrans RankingSnapshot byAnalysisDateDesc :=
  ⟨fun _ _ _ hab hbc => Nat.le_trans hbc hab⟩

/-- Embeds `getLatestRankingSnapshot`: most recently created snapshot. -/
def getLatestRankingSnapshot (snaps : List RankingSnapshot) : Option RankingSnapshot :=
  (List.insertionSort byAnalysisDateDesc snaps).head?

/-- Ordering of `findFirst({ orderBy: { publishedAt: 'desc' } })` on the
filtered (all-`PUBLISHED`, hence all-dated) rows. -/
def byPublishedAtDesc (a b : PostQueue) : Prop :=
  b.publishedAt.getD 0 ≤ a.publishedAt.getD 0

instance : DecidableRel byPublishedAtDesc :=
  fun a b => Nat.decLe (b.publishedAt.getD 0) (a.publishedAt.getD 0)

instance : IsTotal PostQueue byPublishedAtDesc :=
  ⟨fun a b => Nat.le_total (b.publishedAt.getD 0) (a.publishedAt.getD 0)⟩

instance : IsTrans PostQueue byPublishedAtDesc :=
  ⟨fun _ _ _ hab hbc => Nat.le_trans hbc hab⟩

/-- Embeds `getThisWeekPost`: latest queue row already `PUBLISHED` within the
current week. -/
def getThisWeekPost (queue : List PostQueue) (weekStart weekEnd : Nat) :
    Option PostQueue :=
  (List.insertionSort byPublishedAtDesc
    (queue.filter fun p =>
      decide (p.status = PostStatus.PUBLISHED) &&
      match p.publishedAt with
      | some t => decide (weekStart ≤ t) && decide (t ≤ weekEnd)
      | none => false)).head?

/-- The generated blog bundle (`HtmlPost`). -/
structure HtmlPost where
  title : String
  htmlBody : String
  tags : List String
  description : String
deriving DecidableEq, Repr

/-- The analyzer's view of the database plus id counters. -/
structure AnalyzerState where
  plans : List RawPlan
  snapshots : List RankingSnapshot
  queue : List PostQueue
  nextSnapshotId : Nat
  nextQueueId : Nat
deriving DecidableEq, Repr

/-- Return value of `runFullAnalysis`. -/
structure AnalysisResult where
  totalPlans : Nat
  processed : Nat
  failed : Nat
  success : Bool
  hasChanges : Bool
deriving DecidableEq, Repr

/-- External collaborators of one `runFullAnalysis` run: the outcome of the
Gemini analysis/generation steps and the current week bounds used by
`getThisWeekPost`. -/
structure GeminiEnv where
  blog : Except String HtmlPost
  weekStart : Nat
  weekEnd : Nat

/-- Embeds `saveHtmlToQueue`: enqueue the generated post as `REVISION` when a post
already published this week carries an external post id (JS truthiness:
non-null and non-empty), otherwise as `NEW_POST`; the entry starts
`PENDING`. -/
def saveHtmlToQueue (st : AnalyzerState) (env : GeminiEnv) (blog : HtmlPost)
    (snapshotId : Nat) (now : Nat) : AnalyzerState :=
  let base : PostQueue :=
    { id := st.nextQueueId
      title := blog.title
      htmlBody := blog.htmlBody
      tags := blog.tags
      postType := PostType.NEW_POST
      originalPostId := none
      rankingSnapshotId := some snapshotId
      status := PostStatus.PENDING
      retryCount := 0
      failureLog := none
      createdAt := now
      publishedAt := none }
  let entry : PostQueue :=
    match getThisWeekPost st.queue env.weekStart env.weekEnd with
    | some wp =>
        match wp.originalPostId with
        | some oid =>
            if oid = "" then base
            else { base with postType := PostType.REVISION, originalPostId := some oid }
        | none => base
    | none => base
  { st with queue := st.queue ++ [entry], nextQueueId := st.nextQueueId + 1 }

/-- Result the `catch` block of `runFullAnalysis` returns. -/
def analysisFailure : AnalysisResult :=
  { totalPlans := 0, processed := 0, failed := 1, success := false, hasChanges := false }

/-- Steps 4–8 of `runFullAnalysis`, reached when the gate passes: run the
Gemini steps (no database writes), then create the ranking snapshot —
which the `ranking_snapshots_rankingHash_key` unique index rejects when
any stored snapshot already carries the same hash — and enqueue the post.
A thrown error is caught by the surrounding `catch`, which returns
`analysisFailure` and leaves the state as it was at the throw. -/
def analyzeAndPersist (env : GeminiEnv) (st : AnalyzerState) (now : Nat)
    (plans : List RawPlan) (currentRankingHash : String) :
    AnalysisResult × AnalyzerState :=
  match env.blog with
  | Except.error _ => (analysisFailure, st)
  | Except.ok blog =>
      if currentRankingHash ∈ st.snapshots.map RankingSnapshot.rankingHash then
        (analysisFailure, st)
      else
        let top10 := plans.take 10
        let snap : RankingSnapshot :=
          { id := st.nextSnapshotId
            rankingHash := currentRankingHash
            topCount := top10.length
            analysisDate := now
            rankedPlanIds := top10.map RawPlan.id }
        let st1 : AnalyzerState :=
          { st with snapshots := st.snapshots ++ [snap], nextSnapshotId := st.nextSnapshotId + 1 }
        let st2 := saveHtmlToQueue st1 env blog snap.id now
        ({ totalPlans := plans.length, processed := 1, failed := 0,
           success := true, hasChanges := true }, st2)

/-- Embeds `runFullAnalysis`: read all plans (price-ascending); empty table ⇒
trivial success; compare the current ranking hash with the latest
snapshot's — equal ⇒ skip with `hasChanges: false` and no writes;
otherwise run the analysis and persist snapshot + queue entry. -/
def runFullAnalysis (hash : String → String) (env : GeminiEnv) (st : AnalyzerState)
    (now : Nat) : AnalysisResult × AnalyzerState :=
  let plans := sortPlansByPrice st.plans
  if plans.isEmpty then
    ({ totalPlans := 0, processed := 0, failed := 0, success := true, hasChanges := false }, st)
  else
    let currentRankingHash := generateRankingHash hash plans
    match getLatestRankingSnapshot st.snapshots with
    | some snap =>
        if snap.rankingHash = currentRankingHash then
          ({ totalPlans := plans.length, processed := 0, failed := 0,
             success := true, hasChanges := false }, st)
        else analyzeAndPersist env st now plans currentRankingHash
    | none => analyzeAndPersist env st now plans currentRankingHash

/-! ## AutomationService — run function, error classification, delayed retry

Embeds `AutomationService.runAutomation` (`automation.service.ts`): the
three awaited pipeline stages inside `try`, the `catch` that classifies
the error message and — for a Prisma-transaction signature — schedules
`this.runAutomation()` again via `setTimeout(…, 5 * 60 * 1000)`. -/

/-- Outcomes of the three awaited stages of one run. -/
structure PipelineEnv where
  crawl : Except String Unit
  analyze : Except String Unit
  publish : Except String Unit
deriving Repr

/-- The `try` body of `runAutomation`: crawl, then analyze, then publish,
each stage's thrown error aborting the body. -/
def runAutomationBody (env : PipelineEnv) : Except String Unit := do
  let _ ← env.crawl
  let _ ← env.analyze
  env.publish

/-- The transient-infrastructure classification of the `catch` block:
`errorMessage.includes('PrismaClientKnownRequestError') ||
 errorMessage.includes('Transaction') || errorMessage.includes('deadlock')`. -/
def isPrismaErrorMsg (msg : String) : Bool :=
  strIncludes msg "PrismaClientKnownRequestError" ||
  strIncludes msg "Transaction" ||
  strIncludes msg "deadlock"

/-- The fixed `setTimeout` delay: `5 * 60 * 1000` milliseconds. -/
def retryDelayMs : Nat := 5 * 60 * 1000

/-- One `runAutomation` invocation: the `catch` swallows every stage error,
so the function itself always returns normally; its value records the
delay of the re-invocation it scheduled, if any. -/
def runAutomation (env : PipelineEnv) : Except String (Option Nat) :=
  match runAutomationBody env with
  | Except.ok _ => Except.ok none
  | Except.error msg =>
      Except.ok (if isPrismaErrorMsg msg then some retryDelayMs else none)

/-- Delays of the automatic re-invocations accumulated along the
`setTimeout(() => this.runAutomation(), …)` chain: invocation `k` failing
with a Prisma-classified error schedules invocation `k + 1` after
`retryDelayMs`; `fuel` bounds the unrolling. -/
def scheduledRetryDelays (envs : Nat → PipelineEnv) : Nat → Nat → List Nat
  | _, 0 => []
  | k, fuel + 1 =>
      match runAutomationBody (envs k) with
      | Except.ok _ => []
      | Except.error msg =>
          if isPrismaErrorMsg msg then
            retryDelayMs :: scheduledRetryDelays envs (k + 1) fuel
          else []

/-! ## Helper lemmas about the queue operations -/

/-- A row returned by `getNextPost` is a `PENDING` row of the queue. -/
theorem getNextPost_pending {q : List PostQueue} {p : PostQueue}
    (h : getNextPost q = some p) : p ∈ q ∧ p.status = PostStatus.PENDING := by
  unfold getNextPost at h
  rcases List.head?_eq_some_iff.mp h with ⟨ys, hys⟩
  have hmem : p ∈ List.insertionSort byCreatedAt
      (q.filter fun x => decide (x.status = PostStatus.PENDING)) := by
    rw [hys]; exact List.mem_cons_self _ _
  have hmem2 : p ∈ q.filter fun x => decide (x.status = PostStatus.PENDING) :=
    (List.perm_insertionSort _ _).mem_iff.mp hmem
  have hsplit := List.mem_filter.mp hmem2
  exact ⟨hsplit.1, by simpa using hsplit.2⟩

/-- The row returned by `getNextPost` is the oldest `PENDING` row. -/
theorem getNextPost_oldest {q : List PostQueue} {p : PostQueue}
    (h : getNextPost q = some p) :
    ∀ b ∈ q, b.status = PostStatus.PENDING → p.createdAt ≤ b.createdAt := by
  intro b hb hbst
  unfold getNextPost at h
  rcases List.head?_eq_some_iff.mp h with ⟨ys, hys⟩
  have hsorted : List.Sorted byCreatedAt
      (List.insertionSort byCreatedAt
        (q.filter fun x => decide (x.status = PostStatus.PENDING))) :=
    List.sorted_insertionSort byCreatedAt _
  have hbmem : b ∈ q.filter fun x => decide (x.status = PostStatus.PENDING) :=
    List.mem_filter.mpr ⟨hb, by simpa using hbst⟩
  have hbmem2 : b ∈ List.insertionSort byCreatedAt
      (q.filter fun x => decide (x.status = PostStatus.PENDING)) :=
    (List.perm_insertionSort _ _).mem_iff.mpr hbmem
  rw [hys] at hsorted hbmem2
  rcases List.mem_cons.mp hbmem2 with hbp | hbys
  · exact hbp ▸ Nat.le_refl _
  · exact List.rel_of_sorted_cons hsorted b hbys

/-- Recording a failure on an entry read with `retryCount < 3` leaves its
row `PENDING` with the count incremented. -/
theorem drainStep_fail_singleton (e : PostQueue) (msg : String) (t : Nat)
    (hst : e.status = PostStatus.PENDING) (hlt : e.retryCount < 3) :
    drainStep [e] (PublishOutcome.failure msg) t =
      [{ e with
         status := PostStatus.PENDING
         failureLog := some msg
         retryCount := e.retryCount + 1 }] := by
  have hnot : ¬ e.retryCount ≥ 3 := Nat.not_le_of_lt hlt
  simp [drainStep, runPublisher, getNextPost, publishSinglePostDb, updatePostStatus,
    List.filter, hst, List.insertionSort, hnot]

/-- A successful attempt (with no post id extracted from the URL) marks the
row `PUBLISHED`, stamps `publishedAt`, and still increments `retryCount`. -/
theorem drainStep_success_singleton (e : PostQueue) (t : Nat)
    (hst : e.status = PostStatus.PENDING) :
    drainStep [e] (PublishOutcome.success none) t =
      [{ e with
         status := PostStatus.PUBLISHED
         publishedAt := some t
         retryCount := e.retryCount + 1 }] := by
  by_cases hrev : e.postType = PostType.REVISION <;>
    simp [drainStep, runPublisher, getNextPost, publishSinglePostDb,
      List.filter, hst, List.insertionSort, hrev]

/-- Runs `n` consecutive failing drain attempts on a single-entry queue. -/
def iterFail (msg : String) (t : Nat) : Nat → List PostQueue → List PostQueue
  | 0, q => q
  | n + 1, q => iterFail msg t n (drainStep q (PublishOutcome.failure msg) t)

/-- Effect of `n ≤ 3 - retryCount` consecutive failures on one pending row. -/
theorem iterFail_singleton (msg : String) (t : Nat) :
    ∀ (n : Nat) (e : PostQueue), e.status = PostStatus.PENDING →
      e.retryCount + n ≤ 3 →
      iterFail msg t n [e] =
        [if n = 0 then e else
          { e with
            status := PostStatus.PENDING
            failureLog := some msg
            retryCount := e.retryCount + n }] := by
  intro n
  induction n with
  | zero => intro e hst hle; simp [iterFail]
  | succ n ih =>
    intro e hst hle
    have hlt : e.retryCount < 3 := by omega
    have hstep := drainStep_fail_singleton e msg t hst hlt
    have hrec := ih { e with
        status := PostStatus.PENDING
        failureLog := some msg
        retryCount := e.retryCount + 1 } rfl (by simp; omega)
    rw [iterFail, hstep, hrec]
    by_cases hn : n = 0
    · subst hn; simp
    · simp only [hn, if_neg, if_false]
      have : e.retryCount + 1 + n = e.retryCount + (n + 1) := by omega
      simp [this]

/-- Sample queue row used to instantiate the queue theorems. -/
def samplePost : PostQueue :=
  { id := 1
    title := "알뜰폰 요금제 TOP 10"
    htmlBody := "<p>본문</p>"
    tags := ["알뜰폰"]
    postType := PostType.NEW_POST
    originalPostId := none
    rankingSnapshotId := some 1
    status := PostStatus.PENDING
    retryCount := 0
    failureLog := none
    createdAt := 0
    publishedAt := none }

/-- A second, younger sample row. -/
def samplePostB : PostQueue :=
  { samplePost with id := 2, title := "두번째 포스트", createdAt := 1 }

/-! ## Claims about the work queue -/

/-- C1: recording a failed publish outcome for an entry that has already
failed exactly `MAX_RETRIES = 3` times (its `retryCount` is 3) marks the
row `FAILED`, and `getNextPost` only ever returns `PENDING` rows, so a
`FAILED` (or `PUBLISHED`) row is never dequeued again. -/
theorem C1_retry_exhaustion_terminal (queue : List PostQueue) (post : PostQueue)
    (msg : String) (now : Nat) (hrc : post.retryCount = 3) :
    (∀ p ∈ publishSinglePostDb queue post (PublishOutcome.failure msg) now,
        p.id = post.id → p.status = PostStatus.FAILED)
    ∧ (∀ (q : List PostQueue) (p : PostQueue), getNextPost q = some p →
        p.status = PostStatus.PENDING) := by
  constructor
  · intro p hp hid
    simp only [publishSinglePostDb, updatePostStatus, hrc, ge_iff_le, Nat.le_refl,
      if_pos, List.mem_map] at hp
    rcases hp with ⟨a, _, ha⟩
    by_cases h : a.id = post.id
    · rw [if_pos h] at ha
      rw [← ha]
    · rw [if_neg h] at ha
      exact absurd (ha ▸ hid) h
  · intro q p h
    exact (getNextPost_pending h).2

/-- Witness for C1 at a concrete queue: the row that already failed three
times goes to `FAILED`, and dequeuing from a concrete queue returns a
`PENDING` row. -/
theorem C1_retry_exhaustion_terminal_witness :
    ({ samplePost with retryCount := 3 } : PostQueue).retryCount = 3
    ∧ ((∀ p ∈ publishSinglePostDb [{ samplePost with retryCount := 3 }]
          { samplePost with retryCount := 3 } (PublishOutcome.failure "발행 실패") 9,
          p.id = ({ samplePost with retryCount := 3 } : PostQueue).id →
          p.status = PostStatus.FAILED)
       ∧ (∀ (q : List PostQueue) (p : PostQueue), getNextPost q = some p →
          p.status = PostStatus.PENDING)) :=
  ⟨rfl, C1_retry_exhaustion_terminal [{ samplePost with retryCount := 3 }]
    { samplePost with retryCount := 3 } "발행 실패" 9 rfl⟩

/-- C5 counterexample: one `PENDING` entry with `retryCount = 0`; the first
drain attempt fails and the second succeeds.  The entry does end
`PUBLISHED` with `publishedAt` set, but its `retryCount` is 2, not 1,
because `updatePostStatus` increments `retryCount` on the success path as
well. -/
theorem C5_counterexample_retryCount :
    drainStep (drainStep [samplePost] (PublishOutcome.failure "발행 실패") 1)
        (PublishOutcome.success none) 2 =
      [{ samplePost with
         status := PostStatus.PUBLISHED
         retryCount := 2
         failureLog := some "발행 실패"
         publishedAt := some 2 }]
    ∧ ¬ (drainStep (drainStep [samplePost] (PublishOutcome.failure "발행 실패") 1)
        (PublishOutcome.success none) 2).map PostQueue.retryCount = [1] := by
  constructor
  · decide
  · decide

/-- C5 amended: an entry starting `PENDING` with `retryCount = 0` that
fails `n ≤ 3` drain attempts and then succeeds ends `PUBLISHED` with
`publishedAt` set and `retryCount = n + 1` — every attempt, the successful
one included, increments the counter (so fail-once-then-succeed ends with
`retryCount = 2`, and failing `MAX_RETRIES - 1 = 2` times then succeeding
ends with `retryCount = 3`, not `MAX_RETRIES - 1`). -/
theorem C5_amended_publish_after_failures (e : PostQueue) (msg : String)
    (n t1 t2 : Nat) (hst : e.status = PostStatus.PENDING)
    (hrc : e.retryCount = 0) (hn : n ≤ 3) :
    drainStep (iterFail msg t1 n [e]) (PublishOutcome.success none) t2 =
      [{ e with
         status := PostStatus.PUBLISHED
         failureLog := if n = 0 then e.failureLog else some msg
         retryCount := n + 1
         publishedAt := some t2 }] := by
  have hiter := iterFail_singleton msg t1 n e hst (by omega)
  by_cases hn0 : n = 0
  · subst hn0
    have h0 : iterFail msg t1 0 [e] = [e] := rfl
    rw [h0, drainStep_success_singleton e t2 hst]
    simp [hrc]
  · rw [hiter]
    simp only [if_neg hn0]
    rw [drainStep_success_singleton _ t2 rfl]
    simp [hrc, hn0]

/-- Witness for C5 amended: fail once, then succeed — the concrete row ends
`PUBLISHED` with `retryCount = 2`. -/
theorem C5_amended_publish_after_failures_witness :
    samplePost.status = PostStatus.PENDING ∧ samplePost.retryCount = 0 ∧ 1 ≤ 3
    ∧ drainStep (iterFail "발행 실패" 1 1 [samplePost]) (PublishOutcome.success none) 2 =
      [{ samplePost with
         status := PostStatus.PUBLISHED
         failureLog := if 1 = 0 then samplePost.failureLog else some "발행 실패"
         retryCount := 1 + 1
         publishedAt := some 2 }] :=
  ⟨rfl, rfl, by omega,
    C5_amended_publish_after_failures samplePost "발행 실패" 1 1 2 rfl rfl (by omega)⟩

/-- C8 counterexample: two `PENDING` entries, A older than B.  A single
`runPublisher` invocation publishes only A; B is still `PENDING` in the
resulting queue even though the attempt succeeded — `runPublisher` has no
loop, so one invocation does not drain every `PENDING` entry. -/
theorem C8_counterexample_single_entry :
    (runPublisher [samplePost, samplePostB] (PublishOutcome.success none) 5).2 =
      [{ samplePost with
         status := PostStatus.PUBLISHED
         retryCount := 1
         publishedAt := some 5 }, samplePostB]
    ∧ samplePostB.status = PostStatus.PENDING := by
  constructor
  · decide
  · decide

/-- C8 amended: one `runPublisher` invocation dequeues the single oldest
`PENDING` entry — strict FIFO by `createdAt` — publishes it, leaves every
other row untouched, and reports at most one processed entry; draining the
whole queue therefore takes one invocation per entry, in creation order. -/
theorem C8_amended_fifo_single_step (q : List PostQueue) (p : PostQueue)
    (outcome : PublishOutcome) (now : Nat) (h : getNextPost q = some p) :
    (p ∈ q ∧ p.status = PostStatus.PENDING
      ∧ ∀ b ∈ q, b.status = PostStatus.PENDING → p.createdAt ≤ b.createdAt)
    ∧ (∀ b ∈ q, b.id ≠ p.id → b ∈ (runPublisher q outcome now).2)
    ∧ (∀ r q2, runPublisher q outcome now = (Except.ok r, q2) → r.1 ≤ 1) := by
  refine ⟨⟨(getNextPost_pending h).1, (getNextPost_pending h).2, getNextPost_oldest h⟩, ?_, ?_⟩
  · intro b hb hbid
    have hmem : b ∈ publishSinglePostDb q p outcome now := by
      cases outcome with
      | success extracted =>
          simp only [publishSinglePostDb, List.mem_map]
          exact ⟨b, hb, by rw [if_neg hbid]⟩
      | failure msg =>
          simp only [publishSinglePostDb, updatePostStatus, List.mem_map]
          exact ⟨b, hb, by rw [if_neg hbid]⟩
    simp only [runPublisher, h]
    cases outcome with
    | success extracted => exact hmem
    | failure msg => exact hmem
  · intro r q2 hrun
    simp only [runPublisher, h] at hrun
    cases outcome with
    | success extracted =>
        have : r = (1, true) := by
          have := hrun
          simp only [Prod.mk.injEq, Except.ok.injEq] at this
          exact this.1.symm
        simp [this]
    | failure msg =>
        simp only [Prod.mk.injEq] at hrun
        exact absurd hrun.1 (by simp)

/-- Witness for C8 amended at a concrete two-entry queue: the dequeued
entry is the older one, the other entry survives the step, and at most one
entry is processed. -/
theorem C8_amended_fifo_single_step_witness :
    getNextPost [samplePost, samplePostB] = some samplePost
    ∧ ((samplePost ∈ [samplePost, samplePostB] ∧ samplePost.status = PostStatus.PENDING
         ∧ ∀ b ∈ [samplePost, samplePostB], b.status = PostStatus.PENDING →
             samplePost.createdAt ≤ b.createdAt)
       ∧ (∀ b ∈ [samplePost, samplePostB], b.id ≠ samplePost.id →
           b ∈ (runPublisher [samplePost, samplePostB] (PublishOutcome.success none) 5).2)
       ∧ (∀ r q2, runPublisher [samplePost, samplePostB] (PublishOutcome.success none) 5 =
           (Except.ok r, q2) → r.1 ≤ 1)) :=
  ⟨by decide,
    C8_amended_fifo_single_step [samplePost, samplePostB] samplePost
      (PublishOutcome.success none) 5 (by decide)⟩

/-- C3: against an external action whose session-validity check never
passes (`navValid` constantly `false`) while credentials themselves work,
one `publishSinglePost` call makes exactly two authentication attempts —
the initial one (restored session or fresh login) plus the single
re-authentication after invalidity is detected — then propagates the
failure; no run of `publishSinglePost`, under any environment, ever makes
a third. -/
theorem C3_bounded_session_retry (env : SessionEnv)
    (hnav : ∀ k, env.navValid k = false) (hlogin : ∀ k, env.loginOk k = true) :
    (∃ msg, (publishSinglePostFlow env).1 = Except.error msg)
    ∧ (publishSinglePostFlow env).2.authAttempts = 2
    ∧ ∀ env2 : SessionEnv, (publishSinglePostFlow env2).2.authAttempts ≤ 2 := by
  have hcommon : ∀ t : PubTrace, t.authAttempts = 1 →
      flowAfterFirstAuth env t =
        (Except.error "재로그인 후에도 페이지 접근 실패",
          { t with
            authAttempts := t.authAttempts + 1
            logins := t.logins + 1
            sessionSaves := t.sessionSaves + 1
            navCalls := t.navCalls + 2
            sessionDeletes := t.sessionDeletes + 1 }) := by
    intro t _
    simp only [flowAfterFirstAuth, hnav, hlogin, Bool.false_eq_true, if_false, if_true]
  have hbound : ∀ env2 : SessionEnv, (publishSinglePostFlow env2).2.authAttempts ≤ 2 := by
    intro env2
    unfold publishSinglePostFlow flowAfterFirstAuth publishTail
    repeat' split
    all_goals by_cases h5 : env2.loginOk 0 = true <;>
      by_cases h6 : env2.loginOk 1 = true <;> simp [h5, h6]
  have h1 := hcommon
    { authAttempts := 1, logins := 0, navCalls := 0, sessionDeletes := 0, sessionSaves := 0 } rfl
  have h2 := hcommon
    { authAttempts := 1, logins := 1, navCalls := 0, sessionDeletes := 0, sessionSaves := 1 } rfl
  refine ⟨?_, ?_, hbound⟩ <;>
  · unfold publishSinglePostFlow
    by_cases hs : env.hasSession <;> simp [hs, hlogin 0, h1, h2]

/-- Environment of a publish action whose session-validity check never
passes while the credential login itself works. -/
def alwaysInvalidEnv : SessionEnv :=
  { hasSession := false
    loginOk := fun _ => true
    navValid := fun _ => false
    fillOk := true
    publishOk := true }

/-- Witness for C3 at the concrete always-invalid environment. -/
theorem C3_bounded_session_retry_witness :
    (∀ k, alwaysInvalidEnv.navValid k = false)
    ∧ (∀ k, alwaysInvalidEnv.loginOk k = true)
    ∧ ((∃ msg, (publishSinglePostFlow alwaysInvalidEnv).1 = Except.error msg)
       ∧ (publishSinglePostFlow alwaysInvalidEnv).2.authAttempts = 2
       ∧ ∀ env2 : SessionEnv, (publishSinglePostFlow env2).2.authAttempts ≤ 2) :=
  ⟨fun _ => rfl, fun _ => rfl,
    C3_bounded_session_retry alwaysInvalidEnv (fun _ => rfl) (fun _ => rfl)⟩

/-! ## Claims about the automation run function -/

/-- C9: `runAutomation` never throws to its caller — for every combination
of stage outcomes the `catch` block swallows the error and the function
returns normally, so the host process and the next scheduled run are
unaffected. -/
theorem C9_scheduled_run_never_throws (env : PipelineEnv) :
    ∃ scheduled, runAutomation env = Except.ok scheduled := by
  unfold runAutomation
  cases runAutomationBody env with
  | ok _ => exact ⟨none, rfl⟩
  | error msg => exact ⟨_, rfl⟩

/-- Stage outcomes of a run failing with a Prisma-transaction signature. -/
def prismaFailEnv : PipelineEnv :=
  { crawl := Except.error "PrismaClientKnownRequestError: Transaction API error: deadlock detected"
    analyze := Except.ok ()
    publish := Except.ok () }

/-- Stage outcomes of a fully successful run. -/
def okRunEnv : PipelineEnv :=
  { crawl := Except.ok (), analyze := Except.ok (), publish := Except.ok () }

/-- C6: a single Prisma-classified failure does schedule exactly one
re-invocation at the fixed 5-minute delay (second conjunct), but the
re-invocation runs `runAutomation` itself, so when the retried run fails
the same way a further retry is scheduled: two consecutive failing runs
accumulate two scheduled retries, contradicting the claim (and the code's
own "only once" comment) that no automatic retry occurs beyond the first. -/
theorem C6_retry_chain_evaluation :
    scheduledRetryDelays (fun _ => prismaFailEnv) 0 2 = [retryDelayMs, retryDelayMs]
    ∧ retryDelayMs = 300000
    ∧ scheduledRetryDelays (fun k => if k = 0 then prismaFailEnv else okRunEnv) 0 2 =
        [retryDelayMs] := by
  refine ⟨?_, rfl, ?_⟩
  · decide
  · decide

/-! ## Lemmas about the fingerprint-keyed upsert -/

/-- Upsert hit: the fingerprint is already stored, so the row set keeps
exactly the same fingerprints, nothing is created, and no row is added. -/
theorem upsertPlan_hit (hash : String → String) (st : CrawlerState)
    (plan : CrawledPlanData) (now : Nat)
    (hmem : generateDataHash hash plan ∈ st.plans.map RawPlan.dataHash) :
    (upsertPlan hash st plan now).1.plans.map RawPlan.dataHash =
        st.plans.map RawPlan.dataHash
    ∧ (upsertPlan hash st plan now).2 = false
    ∧ (upsertPlan hash st plan now).1.plans.length = st.plans.length := by
  simp only [upsertPlan, if_pos hmem]
  refine ⟨?_, by simp, by simp⟩
  rw [List.map_map]
  apply List.map_congr_left
  intro row _
  by_cases h : row.dataHash = generateDataHash hash plan <;>
    simp [h, refreshPlanRow]

/-- Upsert miss: the fingerprint is new, so exactly one row carrying it is
appended. -/
theorem upsertPlan_miss (hash : String → String) (st : CrawlerState)
    (plan : CrawledPlanData) (now : Nat)
    (hmem : generateDataHash hash plan ∉ st.plans.map RawPlan.dataHash) :
    (upsertPlan hash st plan now).1.plans.map RawPlan.dataHash =
        st.plans.map RawPlan.dataHash ++ [generateDataHash hash plan]
    ∧ (upsertPlan hash st plan now).2 = true
    ∧ (upsertPlan hash st plan now).1.plans.length = st.plans.length + 1 := by
  simp only [upsertPlan, if_neg hmem]
  refine ⟨?_, by simp, by simp⟩
  simp [createdPlanRow]

/-- An upsert never loses a stored fingerprint and always ends with the
upserted record's fingerprint stored; the fingerprint `Nodup` invariant —
the content of the `raw_plans_dataHash_key` unique index — is preserved. -/
theorem upsertPlan_invariants (hash : String → String) (st : CrawlerState)
    (plan : CrawledPlanData) (now : Nat) :
    (∀ h ∈ st.plans.map RawPlan.dataHash,
        h ∈ (upsertPlan hash st plan now).1.plans.map RawPlan.dataHash)
    ∧ generateDataHash hash plan ∈ (upsertPlan hash st plan now).1.plans.map RawPlan.dataHash
    ∧ ((st.plans.map RawPlan.dataHash).Nodup →
        ((upsertPlan hash st plan now).1.plans.map RawPlan.dataHash).Nodup) := by
  by_cases hmem : generateDataHash hash plan ∈ st.plans.map RawPlan.dataHash
  · rw [(upsertPlan_hit hash st plan now hmem).1]
    exact ⟨fun h hh => hh, hmem, fun hd => hd⟩
  · rw [(upsertPlan_miss hash st plan now hmem).1]
    refine ⟨fun h hh => List.mem_append_left _ hh, List.mem_append_right _ (by simp), ?_⟩
    intro hd
    simp [List.nodup_append, hd, List.disjoint_singleton, hmem]

/-- Shifting the created-row counter out of the fold. -/
theorem crawl_foldl_count (hash : String → String) (now : Nat) :
    ∀ (rs : List CrawledPlanData) (st : CrawlerState) (c : Nat),
      rs.foldl (crawlStep hash now) (st, c) =
        ((rs.foldl (crawlStep hash now) (st, 0)).1,
          c + (rs.foldl (crawlStep hash now) (st, 0)).2) := by
  intro rs
  induction rs with
  | nil => intro st c; simp
  | cons r rs ih =>
    intro st c
    simp only [List.foldl_cons, crawlStep]
    rw [ih _ (c + if (upsertPlan hash st r now).2 then 1 else 0),
      ih _ (0 + if (upsertPlan hash st r now).2 then 1 else 0)]
    rw [Prod.mk.injEq]
    refine ⟨rfl, ?_⟩
    by_cases hcr : (upsertPlan hash st r now).2 = true <;> simp [hcr] <;> omega

/-- Ingesting a batch whose fingerprints are all already stored refreshes
fields only: the stored fingerprints are untouched and no row is created. -/
theorem crawlAndSavePlans_all_hits (hash : String → String) (now : Nat) :
    ∀ (rs : List CrawledPlanData) (st : CrawlerState),
      (∀ r ∈ rs, generateDataHash hash r ∈ st.plans.map RawPlan.dataHash) →
      (crawlAndSavePlans hash st rs now).1.plans.map RawPlan.dataHash =
          st.plans.map RawPlan.dataHash
      ∧ (crawlAndSavePlans hash st rs now).2 = 0 := by
  intro rs
  induction rs with
  | nil => intro st _; exact ⟨rfl, rfl⟩
  | cons r rs ih =>
    intro st hall
    have hhit := upsertPlan_hit hash st r now (hall r (List.mem_cons_self r rs))
    have htail : ∀ x ∈ rs, generateDataHash hash x ∈
        (upsertPlan hash st r now).1.plans.map RawPlan.dataHash := by
      intro x hx
      rw [hhit.1]
      exact hall x (List.mem_cons_of_mem r hx)
    have hrec := ih (upsertPlan hash st r now).1 htail
    unfold crawlAndSavePlans at hrec ⊢
    simp only [List.foldl_cons, crawlStep, hhit.2.1, if_neg Bool.false_ne_true]
    constructor
    · rw [hrec.1, hhit.1]
    · simpa using hrec.2

/-- After ingesting a batch, every record's fingerprint is stored, none of
the previously stored fingerprints was lost, and the fingerprint `Nodup`
invariant is preserved. -/
theorem crawlAndSavePlans_invariants (hash : String → String) (now : Nat) :
    ∀ (rs : List CrawledPlanData) (st : CrawlerState),
      (∀ h ∈ st.plans.map RawPlan.dataHash,
          h ∈ (crawlAndSavePlans hash st rs now).1.plans.map RawPlan.dataHash)
      ∧ (∀ r ∈ rs, generateDataHash hash r ∈
          (crawlAndSavePlans hash st rs now).1.plans.map RawPlan.dataHash)
      ∧ ((st.plans.map RawPlan.dataHash).Nodup →
          ((crawlAndSavePlans hash st rs now).1.plans.map RawPlan.dataHash).Nodup) := by
  intro rs
  induction rs with
  | nil => intro st; exact ⟨fun h hh => hh, by simp, fun hd => hd⟩
  | cons r rs ih =>
    intro st
    have hup := upsertPlan_invariants hash st r now
    have hcons : crawlAndSavePlans hash st (r :: rs) now =
        ((crawlAndSavePlans hash (upsertPlan hash st r now).1 rs now).1,
          ((if (upsertPlan hash st r now).2 then 1 else 0) +
            (crawlAndSavePlans hash (upsertPlan hash st r now).1 rs now).2)) := by
      unfold crawlAndSavePlans
      simp only [List.foldl_cons, crawlStep]
      rw [crawl_foldl_count hash now rs (upsertPlan hash st r now).1
        (0 + if (upsertPlan hash st r now).2 then 1 else 0)]
      simp
    rw [hcons]
    have hrec := ih (upsertPlan hash st r now).1
    refine ⟨?_, ?_, ?_⟩
    · intro h hh
      exact hrec.1 h (hup.1 h hh)
    · intro x hx
      rcases List.mem_cons.mp hx with hxr | hxs
      · exact hxr ▸ hrec.1 _ hup.2.1
      · exact hrec.2.1 x hxs
    · intro hd
      exact hrec.2.2 (hup.2.2 hd)

/-- Unfolding one record of the batch loop. -/
theorem crawlAndSavePlans_cons (hash : String → String) (now : Nat)
    (r : CrawledPlanData) (rs : List CrawledPlanData) (st : CrawlerState) :
    crawlAndSavePlans hash st (r :: rs) now =
      ((crawlAndSavePlans hash (upsertPlan hash st r now).1 rs now).1,
        (if (upsertPlan hash st r now).2 then 1 else 0) +
          (crawlAndSavePlans hash (upsertPlan hash st r now).1 rs now).2) := by
  unfold crawlAndSavePlans
  simp only [List.foldl_cons, crawlStep]
  rw [crawl_foldl_count hash now rs (upsertPlan hash st r now).1
    (0 + if (upsertPlan hash st r now).2 then 1 else 0)]
  simp

/-- Ingesting a batch of records with pairwise distinct fingerprints, none
stored yet, creates exactly one row per record. -/
theorem crawlAndSavePlans_all_misses (hash : String → String) (now : Nat) :
    ∀ (rs : List CrawledPlanData) (st : CrawlerState),
      (rs.map (generateDataHash hash)).Nodup →
      (∀ r ∈ rs, generateDataHash hash r ∉ st.plans.map RawPlan.dataHash) →
      (crawlAndSavePlans hash st rs now).1.plans.length = st.plans.length + rs.length
      ∧ (crawlAndSavePlans hash st rs now).2 = rs.length := by
  intro rs
  induction rs with
  | nil => intro st _ _; exact ⟨by simp [crawlAndSavePlans], rfl⟩
  | cons r rs ih =>
    intro st hnd hnotin
    have hmiss := upsertPlan_miss hash st r now (hnotin r (List.mem_cons_self r rs))
    rw [List.map_cons, List.nodup_cons] at hnd
    have hndtail : (rs.map (generateDataHash hash)).Nodup := hnd.2
    have hheadne : ∀ x ∈ rs, generateDataHash hash x ≠ generateDataHash hash r := by
      intro x hx heq
      exact hnd.1 (heq ▸ List.mem_map_of_mem (generateDataHash hash) hx)
    have htail : ∀ x ∈ rs, generateDataHash hash x ∉
        (upsertPlan hash st r now).1.plans.map RawPlan.dataHash := by
      intro x hx hmem
      rw [hmiss.1] at hmem
      rcases List.mem_append.mp hmem with hold | hnew
      · exact hnotin x (List.mem_cons_of_mem r hx) hold
      · exact hheadne x hx (by simpa using hnew)
    have hrec := ih (upsertPlan hash st r now).1 hndtail htail
    rw [crawlAndSavePlans_cons]
    refine ⟨?_, ?_⟩
    · simp only [hrec.1, hmiss.2.2, List.length_cons]
      omega
    · simp only [hrec.2, hmiss.2.1, if_pos, List.length_cons]
      omega

/-! ## Claim about ingestion idempotence -/

/-- C2: the upsert is keyed on the fingerprint, so (a) ingesting the same
record twice leaves exactly one stored row carrying its fingerprint and
the second ingestion creates nothing; (b) ingesting a batch of records
with pairwise distinct fingerprints into an empty store creates one row
each; and (c) re-ingesting the same batch leaves the row count unchanged
and creates zero rows. -/
theorem C2_idempotent_ingestion (hash : String → String) (st : CrawlerState)
    (r : CrawledPlanData) (rs : List CrawledPlanData) (now1 now2 : Nat)
    (hnodup : (st.plans.map RawPlan.dataHash).Nodup)
    (hdistinct : (rs.map (generateDataHash hash)).Nodup) :
    (((upsertPlan hash (upsertPlan hash st r now1).1 r now2).1.plans.map
          RawPlan.dataHash).count (generateDataHash hash r) = 1
      ∧ (upsertPlan hash (upsertPlan hash st r now1).1 r now2).2 = false)
    ∧ (crawlAndSavePlans hash { plans := [], nextId := 0 } rs now1).1.plans.length = rs.length
    ∧ (crawlAndSavePlans hash
          (crawlAndSavePlans hash { plans := [], nextId := 0 } rs now1).1 rs
          now2).1.plans.length =
        (crawlAndSavePlans hash { plans := [], nextId := 0 } rs now1).1.plans.length
    ∧ (crawlAndSavePlans hash
          (crawlAndSavePlans hash { plans := [], nextId := 0 } rs now1).1 rs now2).2 = 0 := by
  have hfirst := upsertPlan_invariants hash st r now1
  have hmem1 : generateDataHash hash r ∈
      (upsertPlan hash st r now1).1.plans.map RawPlan.dataHash := hfirst.2.1
  have hnodup1 := hfirst.2.2 hnodup
  have hhit := upsertPlan_hit hash (upsertPlan hash st r now1).1 r now2 hmem1
  have hbatch := crawlAndSavePlans_all_misses hash now1 rs
    { plans := [], nextId := 0 } hdistinct (by simp)
  have hall : ∀ x ∈ rs, generateDataHash hash x ∈
      (crawlAndSavePlans hash { plans := [], nextId := 0 } rs now1).1.plans.map
        RawPlan.dataHash :=
    (crawlAndSavePlans_invariants hash now1 rs { plans := [], nextId := 0 }).2.1
  have hsecond := crawlAndSavePlans_all_hits hash now2 rs
    (crawlAndSavePlans hash { plans := [], nextId := 0 } rs now1).1 hall
  refine ⟨⟨?_, hhit.2.1⟩, by simpa using hbatch.1, ?_, hsecond.2⟩
  · rw [hhit.1]
    exact List.count_eq_one_of_mem hnodup1 hmem1
  · have hmapeq := hsecond.1
    have := congrArg List.length hmapeq
    simpa using this

/-- Concrete crawled record used to instantiate the ingestion theorem. -/
def sampleRecord (name : String) (price : Int) : CrawledPlanData :=
  { planName := name
    sourceSite := "moyo"
    detailUrl := "https://example.com/plan"
    mvno := "알뜰모바일"
    network := "LGU"
    technology := "LTE"
    pricePromo := price
    priceOriginal := price + 10000
    promotionDurationMonths := 7
    promotionEndDate := none
    dataBaseGB := 11
    dataPostSpeedMbps := some 3
    talkMinutes := 100
    smsCount := 100
    benefitSummary := "7개월 할인" }

/-- The empty `raw_plans` table. -/
def emptyCrawler : CrawlerState := { plans := [], nextId := 0 }

/-- First sample record. -/
def sampleRecordA : CrawledPlanData := sampleRecord "요금제A" 6000

/-- A three-record sample batch with pairwise distinct fingerprints. -/
def sampleBatch : List CrawledPlanData :=
  [sampleRecordA, sampleRecord "요금제B" 7000, sampleRecord "요금제C" 8000]

/-- Witness for C2: a three-record batch with fingerprints `h1 h2 h3` into
an empty store. -/
theorem C2_idempotent_ingestion_witness :
    (emptyCrawler.plans.map RawPlan.dataHash).Nodup
    ∧ (sampleBatch.map (generateDataHash id)).Nodup
    ∧ ((((upsertPlan id (upsertPlan id emptyCrawler sampleRecordA 1).1
            sampleRecordA 2).1.plans.map
            RawPlan.dataHash).count (generateDataHash id sampleRecordA) = 1
        ∧ (upsertPlan id (upsertPlan id emptyCrawler sampleRecordA 1).1
            sampleRecordA 2).2 = false)
    ∧ (crawlAndSavePlans id emptyCrawler sampleBatch 1).1.plans.length = sampleBatch.length
    ∧ (crawlAndSavePlans id (crawlAndSavePlans id emptyCrawler sampleBatch 1).1
          sampleBatch 2).1.plans.length =
        (crawlAndSavePlans id emptyCrawler sampleBatch 1).1.plans.length
    ∧ (crawlAndSavePlans id (crawlAndSavePlans id emptyCrawler sampleBatch 1).1
          sampleBatch 2).2 = 0) :=
  ⟨by decide, by decide,
    C2_idempotent_ingestion id emptyCrawler sampleRecordA sampleBatch 1 2
      (by decide) (by decide)⟩

/-! ## Lemmas about the ranking hash -/

/-- The string sort returns a permutation of its input. -/
theorem sortStrings_perm (l : List String) : (sortStrings l).Perm l :=
  List.perm_insertionSort strLe l

/-- The string sort returns a sorted list. -/
theorem sortStrings_sorted (l : List String) : List.Sorted strLe (sortStrings l) :=
  List.sorted_insertionSort strLe l

/-- Sorting quotients out the feeding order: permuted inputs sort equal. -/
theorem sortStrings_eq_of_perm {l1 l2 : List String} (h : l1.Perm l2) :
    sortStrings l1 = sortStrings l2 :=
  List.eq_of_perm_of_sorted
    ((sortStrings_perm l1).trans (h.trans (sortStrings_perm l2).symm))
    (sortStrings_sorted l1) (sortStrings_sorted l2)

/-- Pipe-joining is injective on equal-length lists of 64-character strings
(the shape of SHA-256 hex fingerprints). -/
theorem joinPipe_inj : ∀ (l1 l2 : List String),
    (∀ s ∈ l1, s.length = 64) → (∀ s ∈ l2, s.length = 64) →
    l1.length = l2.length → joinPipe l1 = joinPipe l2 → l1 = l2 := by
  intro l1
  induction l1 with
  | nil =>
    intro l2 _ _ hlen _
    cases l2 with
    | nil => rfl
    | cons b r2 => simp at hlen
  | cons a r1 ih =>
    intro l2 h1 h2 hlen hjoin
    cases l2 with
    | nil => simp at hlen
    | cons b r2 =>
      cases r1 with
      | nil =>
        cases r2 with
        | nil => simpa [joinPipe] using hjoin
        | cons d r2x => simp at hlen
      | cons c r1x =>
        cases r2 with
        | nil => simp at hlen
        | cons d r2x =>
          have hd : a.data ++ '|' :: (joinPipe (c :: r1x)).data =
              b.data ++ '|' :: (joinPipe (d :: r2x)).data := by
            have hdata := congrArg String.data hjoin
            simpa [joinPipe, String.data_append] using hdata
          have hlen64 : a.data.length = b.data.length := by
            have ha := h1 a (List.mem_cons_self a _)
            have hb := h2 b (List.mem_cons_self b _)
            show a.length = b.length
            rw [ha, hb]
          have hsplit := List.append_inj hd hlen64
          have hab : a = b := String.ext hsplit.1
          have htails : joinPipe (c :: r1x) = joinPipe (d :: r2x) :=
            String.ext (List.cons.inj hsplit.2).2
          have hrest : c :: r1x = d :: r2x := by
            apply ih (d :: r2x)
            · intro s hs; exact h1 s (List.mem_cons_of_mem a hs)
            · intro s hs; exact h2 s (List.mem_cons_of_mem b hs)
            · simpa using hlen
            · exact htails
          rw [hab, hrest]

/-! ## Claim about the aggregate fingerprint -/

/-- C7: the ranking hash of a selection of at most ten plans is invariant
under permuting the order the members are fed in (their fingerprints are
sorted before joining), while — for an injective hash over fingerprints of
the SHA-256 hex shape (64 characters) — replacing any one member's
fingerprint with a different one changes the ranking hash. -/
theorem C7_ranking_hash_perm_invariant_member_sensitive (hash : String → String)
    (hinj : Function.Injective hash) (ps qs : List RawPlan) (i : Nat) (h2 : String)
    (hperm : ps.Perm qs) (hlen : ps.length ≤ 10) (hi : i < ps.length)
    (hlen64 : ∀ p ∈ ps, p.dataHash.length = 64) (h2len : h2.length = 64)
    (hne : h2 ≠ (ps.get ⟨i, hi⟩).dataHash) :
    generateRankingHash hash ps = generateRankingHash hash qs
    ∧ generateRankingHash hash
        (ps.set i { ps.get ⟨i, hi⟩ with dataHash := h2 }) ≠ generateRankingHash hash ps := by
  have hqlen : qs.length ≤ 10 := hperm.length_eq ▸ hlen
  have htakep : ps.take 10 = ps := List.take_of_length_le hlen
  have htakeq : qs.take 10 = qs := List.take_of_length_le hqlen
  constructor
  · unfold generateRankingHash
    rw [htakep, htakeq, sortStrings_eq_of_perm (hperm.map RawPlan.dataHash)]
  · intro hcontra
    set x := (ps.get ⟨i, hi⟩).dataHash with hx
    set ps2 := ps.set i { ps.get ⟨i, hi⟩ with dataHash := h2 } with hps2
    have htakep2 : ps2.take 10 = ps2 :=
      List.take_of_length_le (by simpa [hps2] using hlen)
    unfold generateRankingHash at hcontra
    rw [htakep, htakep2] at hcontra
    have hmap2 : ps2.map RawPlan.dataHash = (ps.map RawPlan.dataHash).set i h2 := by
      rw [hps2, List.map_set]
    have hjoin := hinj hcontra
    have hsorteq : sortStrings (ps2.map RawPlan.dataHash) =
        sortStrings (ps.map RawPlan.dataHash) := by
      apply joinPipe_inj
      · intro s hs
        have hsmem : s ∈ ps2.map RawPlan.dataHash := (sortStrings_perm _).mem_iff.mp hs
        rw [hmap2] at hsmem
        rcases List.mem_or_eq_of_mem_set hsmem with hmem | hrfl
        · rcases List.mem_map.mp hmem with ⟨p, hp, hps⟩
          exact hps ▸ hlen64 p hp
        · exact hrfl ▸ h2len
      · intro s hs
        have hsmem : s ∈ ps.map RawPlan.dataHash := (sortStrings_perm _).mem_iff.mp hs
        rcases List.mem_map.mp hsmem with ⟨p, hp, hps⟩
        exact hps ▸ hlen64 p hp
      · rw [(sortStrings_perm _).length_eq, (sortStrings_perm _).length_eq,
          hmap2, List.length_set]
      · exact hjoin
    have hpermmaps : (ps2.map RawPlan.dataHash).Perm (ps.map RawPlan.dataHash) :=
      ((sortStrings_perm _).symm.trans (hsorteq ▸ sortStrings_perm _))
    have hcounts := hpermmaps.count_eq x
    have hilen : i < (ps.map RawPlan.dataHash).length := by simpa using hi
    have hgetx : (ps.map RawPlan.dataHash)[i] = x := by
      rw [List.getElem_map]
      simp [hx, List.get_eq_getElem]
    have hcset := List.count_set h2 x (ps.map RawPlan.dataHash) i hilen
    have hxmem : x ∈ ps.map RawPlan.dataHash := by
      rw [← hgetx]
      exact List.getElem_mem _
    have hpos : 0 < (ps.map RawPlan.dataHash).count x := List.count_pos_iff.mpr hxmem
    rw [hmap2] at hcounts
    rw [hcset] at hcounts
    have hbeq1 : ((ps.map RawPlan.dataHash)[i] == x) = true := by
      rw [hgetx]; exact beq_self_eq_true x
    have hbeq2 : (h2 == x) = false := by
      simpa using hne
    rw [hbeq1, hbeq2] at hcounts
    simp at hcounts
    omega

/-- A 64-character fingerprint made of one repeated character. -/
def hash64 (c : Char) : String := String.mk (List.replicate 64 c)

/-- Sample stored plan row used to instantiate the ranking-hash theorems. -/
def samplePlan (name dh : String) (price : Int) : RawPlan :=
  { id := 0
    planName := name
    dataHash := dh
    sourceSite := "moyo"
    detailUrl := "https://example.com/plan"
    mvno := "알뜰모바일"
    network := "LGU"
    technology := "LTE"
    pricePromo := price
    priceOriginal := price + 10000
    promotionDurationMonths := 7
    promotionEndDate := none
    dataBaseGB := 11
    dataPostSpeedMbps := some 3
    talkMinutes := 100
    smsCount := 100
    benefitSummary := ""
    createdAt := 0
    updatedAt := 0 }

/-- Sample plan with fingerprint `aaaa…`. -/
def planHa : RawPlan := samplePlan "요금제A" (hash64 'a') 6000

/-- Sample plan with fingerprint `bbbb…`. -/
def planHb : RawPlan := samplePlan "요금제B" (hash64 'b') 7000

/-- Witness for C7 at a concrete two-plan selection: feeding the members in
the opposite order yields the same ranking hash, replacing the first
member's fingerprint changes it. -/
theorem C7_ranking_hash_witness :
    Function.Injective (id : String → String)
    ∧ ([planHa, planHb] : List RawPlan).Perm [planHb, planHa]
    ∧ (generateRankingHash id [planHa, planHb] = generateRankingHash id [planHb, planHa]
       ∧ generateRankingHash id
           (([planHa, planHb] : List RawPlan).set 0
             { ([planHa, planHb] : List RawPlan).get ⟨0, by decide⟩ with
               dataHash := hash64 'c' }) ≠
         generateRankingHash id [planHa, planHb]) :=
  ⟨Function.injective_id, List.Perm.swap planHb planHa [],
    C7_ranking_hash_perm_invariant_member_sensitive id Function.injective_id
      [planHa, planHb] [planHb, planHa] 0 (hash64 'c') (List.Perm.swap planHb planHa [])
      (by decide) (by decide) (by decide) (by decide) (by decide)⟩

/-! ## Claims about the change gate -/

/-- Snapshots are untouched by enqueueing the generated post. -/
theorem saveHtmlToQueue_snapshots (st : AnalyzerState) (env : GeminiEnv)
    (blog : HtmlPost) (snapshotId now : Nat) :
    (saveHtmlToQueue st env blog snapshotId now).snapshots = st.snapshots := rfl

/-- Every path of the gated analysis preserves the uniqueness of stored
snapshot fingerprints (the `ranking_snapshots_rankingHash_key` unique
index): a snapshot is only inserted after the duplicate check rejects an
already-stored hash. -/
theorem analyzeAndPersist_snapshots_nodup (env : GeminiEnv) (st : AnalyzerState)
    (now : Nat) (plans : List RawPlan) (ch : String)
    (hnodup : (st.snapshots.map RankingSnapshot.rankingHash).Nodup) :
    (((analyzeAndPersist env st now plans ch).2.snapshots.map
        RankingSnapshot.rankingHash).Nodup) := by
  unfold analyzeAndPersist
  split
  · exact hnodup
  · split
    · exact hnodup
    · rename_i blog hblog hnotmem
      simp only [saveHtmlToQueue_snapshots, List.map_append, List.map_cons, List.map_nil]
      rw [List.nodup_append]
      exact ⟨hnodup, List.nodup_singleton _, by simpa [List.disjoint_singleton] using hnotmem⟩

/-- All paths of `runFullAnalysis` preserve snapshot-fingerprint
uniqueness. -/
theorem runFullAnalysis_snapshots_nodup (hash : String → String) (env : GeminiEnv)
    (st : AnalyzerState) (now : Nat)
    (hnodup : (st.snapshots.map RankingSnapshot.rankingHash).Nodup) :
    (((runFullAnalysis hash env st now).2.snapshots.map
        RankingSnapshot.rankingHash).Nodup) := by
  unfold runFullAnalysis
  dsimp only
  repeat' split
  all_goals first
    | exact hnodup
    | exact analyzeAndPersist_snapshots_nodup env st now _ _ hnodup

/-- C4: when the freshly computed ranking hash equals the latest stored
snapshot's hash, the run reports `hasChanges: false` with zero processed
posts and performs no write at all — plans, snapshots and queue are
exactly as before; the downstream Gemini / enqueue work is skipped. -/
theorem C4_gate_skip_no_writes (hash : String → String) (env : GeminiEnv)
    (st : AnalyzerState) (now : Nat) (snap : RankingSnapshot)
    (hne : sortPlansByPrice st.plans ≠ [])
    (hlatest : getLatestRankingSnapshot st.snapshots = some snap)
    (heq : snap.rankingHash = generateRankingHash hash (sortPlansByPrice st.plans)) :
    runFullAnalysis hash env st now =
      ({ totalPlans := (sortPlansByPrice st.plans).length, processed := 0, failed := 0,
         success := true, hasChanges := false }, st) := by
  unfold runFullAnalysis
  rw [if_neg (by simpa [List.isEmpty_iff] using hne)]
  rw [hlatest]
  simp [heq]

/-- A stored snapshot carrying the fingerprint `aaaa…`. -/
def sampleSnapshotOld : RankingSnapshot :=
  { id := 1, rankingHash := hash64 'a', topCount := 1, analysisDate := 0, rankedPlanIds := [0] }

/-- A younger stored snapshot carrying the fingerprint `bbbb…`. -/
def sampleSnapshotNew : RankingSnapshot :=
  { id := 2, rankingHash := hash64 'b', topCount := 1, analysisDate := 5, rankedPlanIds := [0] }

/-- A successfully generated blog bundle. -/
def sampleBlog : HtmlPost :=
  { title := "알뜰폰 요금제 추천"
    htmlBody := "<h2>추천 요금제</h2>"
    tags := ["알뜰폰"]
    description := "이번 주 추천 요금제" }

/-- Analyzer environment whose Gemini steps succeed. -/
def sampleGemini : GeminiEnv := { blog := Except.ok sampleBlog, weekStart := 0, weekEnd := 100 }

/-- State whose latest snapshot already carries the current ranking hash. -/
def gateSkipState : AnalyzerState :=
  { plans := [planHa]
    snapshots := [sampleSnapshotOld]
    queue := []
    nextSnapshotId := 2
    nextQueueId := 1 }

/-- Witness for C4 at a concrete state: one stored plan, one snapshot with
the same ranking hash — the run changes nothing. -/
theorem C4_gate_skip_no_writes_witness :
    sortPlansByPrice gateSkipState.plans ≠ []
    ∧ getLatestRankingSnapshot gateSkipState.snapshots = some sampleSnapshotOld
    ∧ sampleSnapshotOld.rankingHash = generateRankingHash id (sortPlansByPrice gateSkipState.plans)
    ∧ runFullAnalysis id sampleGemini gateSkipState 7 =
        ({ totalPlans := (sortPlansByPrice gateSkipState.plans).length, processed := 0,
           failed := 0, success := true, hasChanges := false }, gateSkipState) :=
  ⟨by decide, by decide, by decide,
    C4_gate_skip_no_writes id sampleGemini gateSkipState 7 sampleSnapshotOld
      (by decide) (by decide) (by decide)⟩

/-- C10 (implicit): snapshot fingerprints are unique across the whole
history, not merely against the latest snapshot — every run preserves the
`Nodup` of stored hashes — and a run whose current hash differs from the
latest snapshot's but equals an older one passes the gate and then fails
at snapshot creation (the `ranking_snapshots_rankingHash_key` unique
index), so the run ends in the failure result with the state unchanged:
no new snapshot and no queue entry are persisted. -/
theorem C10_snapshot_hash_history_unique (hash : String → String) (env : GeminiEnv)
    (st : AnalyzerState) (now : Nat) (snap : RankingSnapshot) (blog : HtmlPost)
    (hnodup : (st.snapshots.map RankingSnapshot.rankingHash).Nodup)
    (hne : sortPlansByPrice st.plans ≠ [])
    (hlatest : getLatestRankingSnapshot st.snapshots = some snap)
    (hneq : snap.rankingHash ≠ generateRankingHash hash (sortPlansByPrice st.plans))
    (hmem : generateRankingHash hash (sortPlansByPrice st.plans) ∈
        st.snapshots.map RankingSnapshot.rankingHash)
    (hblog : env.blog = Except.ok blog) :
    runFullAnalysis hash env st now = (analysisFailure, st)
    ∧ ∀ (hash2 : String → String) (env2 : GeminiEnv) (st2 : AnalyzerState) (now2 : Nat),
        (st2.snapshots.map RankingSnapshot.rankingHash).Nodup →
        (((runFullAnalysis hash2 env2 st2 now2).2.snapshots.map
            RankingSnapshot.rankingHash).Nodup) := by
  refine ⟨?_, fun hash2 env2 st2 now2 h =>
    runFullAnalysis_snapshots_nodup hash2 env2 st2 now2 h⟩
  unfold runFullAnalysis
  rw [if_neg (by simpa [List.isEmpty_iff] using hne)]
  rw [hlatest]
  dsimp only
  rw [if_neg hneq]
  unfold analyzeAndPersist
  rw [hblog]
  simp [hmem]

/-- State whose latest snapshot differs from the current ranking hash while
an older snapshot already stores it. -/
def duplicateHashState : AnalyzerState :=
  { plans := [planHa]
    snapshots := [sampleSnapshotOld, sampleSnapshotNew]
    queue := []
    nextSnapshotId := 3
    nextQueueId := 1 }

/-- Witness for C10 at a concrete state: the gate passes (latest hash is
`bbbb…`, current is `aaaa…`) but the old `aaaa…` snapshot makes creation
fail, leaving the state untouched. -/
theorem C10_snapshot_hash_history_unique_witness :
    (duplicateHashState.snapshots.map RankingSnapshot.rankingHash).Nodup
    ∧ sortPlansByPrice duplicateHashState.plans ≠ []
    ∧ getLatestRankingSnapshot duplicateHashState.snapshots = some sampleSnapshotNew
    ∧ sampleSnapshotNew.rankingHash ≠
        generateRankingHash id (sortPlansByPrice duplicateHashState.plans)
    ∧ generateRankingHash id (sortPlansByPrice duplicateHashState.plans) ∈
        duplicateHashState.snapshots.map RankingSnapshot.rankingHash
    ∧ sampleGemini.blog = Except.ok sampleBlog
    ∧ (runFullAnalysis id sampleGemini duplicateHashState 7 =
          (analysisFailure, duplicateHashState)
       ∧ ∀ (hash2 : String → String) (env2 : GeminiEnv) (st2 : AnalyzerState) (now2 : Nat),
          (st2.snapshots.map RankingSnapshot.rankingHash).Nodup →
          (((runFullAnalysis hash2 env2 st2 now2).2.snapshots.map
              RankingSnapshot.rankingHash).Nodup)) :=
  ⟨by decide, by decide, by decide, by decide, by decide, rfl,
    C10_snapshot_hash_history_unique id sampleGemini duplicateHashState 7
      sampleSnapshotNew sampleBlog (by decide) (by decide) (by decide) (by decide)
      (by decide) rfl⟩

end Tstory
